import Mathlib

/-!
Verification development for the Tavern-Register repository.

The definitions below are a shallow embedding of the repository's core:
the identity binding store (src/db.js), the OAuth state-token and
authorization-ticket stores (src/oauth.js), the remote session client
(src/sillyTavernClient.js), and the ticket-based POST /register handler.

JavaScript strings are modelled as Lean String (operated on via List Char
with structural recursion so that every definition evaluates by kernel
reduction), JS Map objects as insertion-ordered association lists, and
network I/O as explicit response values passed to the functions that the
code would obtain from fetch.  Timestamps (Date.now()) are Nat milliseconds.
-/

namespace TavernRegister

/-- JS truthiness of a nullable string: null/undefined and the empty string
are falsy, every other string is truthy. -/
def truthy (s : Option String) : Bool := !(s.getD "" == "")

/-- ASCII lowercase letter test (models the regex class a-z used by the
string helpers of the code's dependencies). -/
def isLowerA (c : Char) : Bool := 97 ≤ c.toNat && c.toNat ≤ 122

/-- ASCII uppercase letter test (regex class A-Z). -/
def isUpperA (c : Char) : Bool := 65 ≤ c.toNat && c.toNat ≤ 90

/-- ASCII digit test (regex class 0-9). -/
def isDigitA (c : Char) : Bool := 48 ≤ c.toNat && c.toNat ≤ 57

/-- ASCII letter test. -/
def isAlphaA (c : Char) : Bool := isUpperA c || isLowerA c

/-- ASCII alphanumeric test. -/
def isAlnumA (c : Char) : Bool := isAlphaA c || isDigitA c

/-- ASCII lowering of one character, as JS toLowerCase acts on ASCII. -/
def toLowerChar (c : Char) : Char :=
if 65 ≤ c.toNat ∧ c.toNat ≤ 90 then Char.ofNat (c.toNat + 32) else c

/-- Whitespace recognised by JS String.prototype.trim (ASCII part plus NBSP). -/
def isJsSpace (c : Char) : Bool :=
c == ' ' || c == '\t' || c == '\n' || c == '\r' || c == Char.ofNat 11 ||
  c == Char.ofNat 12 || c == Char.ofNat 160

/-- Both-ends trim on a character list. -/
def trimChars (l : List Char) : List Char :=
((l.dropWhile isJsSpace).reverse.dropWhile isJsSpace).reverse

/-- Model of JS String.prototype.trim. -/
def trimS (s : String) : String := ⟨trimChars s.data⟩

/-- Model of JS toLowerCase on a character list (ASCII scope). -/
def lowerChars (l : List Char) : List Char := l.map toLowerChar

/-- Does the list start with the given pattern. -/
def leadsWith : List Char → List Char → Bool
| [], _ => true
| _ :: _, [] => false
| p :: ps, c :: cs => p == c && leadsWith ps cs

/-- Does the list contain the pattern as a contiguous subsequence
(models JS String.prototype.includes). -/
def containsSeq (pat : List Char) : List Char → Bool
| [] => leadsWith pat []
| c :: cs => leadsWith pat (c :: cs) || containsSeq pat cs

/-- Substring test on strings (models JS includes). -/
def containsSub (s pat : String) : Bool := containsSeq pat.data s.data

/-! ## Insertion-ordered association lists modelling JS Map -/

/-- Map.get: value of the first (only) entry with the given key. -/
def mget {α : Type} (m : List (String × α)) (k : String) : Option α :=
(m.find? (fun p => p.1 == k)).map (fun p => p.2)

/-- Map.delete: remove the entry with the given key. -/
def mdelete {α : Type} (m : List (String × α)) (k : String) : List (String × α) :=
m.filter (fun p => !(p.1 == k))

/-- Map.set: replace in place if the key exists, else append (JS Map keeps
insertion order and updates in place). -/
def mset {α : Type} (m : List (String × α)) (k : String) (v : α) : List (String × α) :=
if m.any (fun p => p.1 == k) then m.map (fun p => if p.1 == k then (k, v) else p)
else m ++ [(k, v)]

/-! ## Identity binding store (src/db.js)

The oauth_bindings SQLite table has UNIQUE(provider, provider_id) and
UNIQUE(tavern_handle).  A row is a Binding; NULL tavern_handle is none
(SQLite treats NULLs as distinct for UNIQUE).  The store is the list of
rows in insertion order. -/

structure Binding where
  provider : String
  providerId : String
  tavernHandle : Option String
deriving DecidableEq, Repr

abbrev BindingStore := List Binding

inductive DbError
| bindingConflict
deriving DecidableEq, Repr

/-- Row matches the (provider, provider_id) key. -/
def keyMatches (provider providerId : String) (b : Binding) : Bool :=
b.provider == provider && b.providerId == providerId

/-- db.js findBinding: SELECT ... WHERE provider = ? AND provider_id = ?. -/
def findBinding (provider providerId : String) (db : BindingStore) : Option Binding :=
db.find? (keyMatches provider providerId)

/-- Is the handle already used by a row with a different key (the condition
under which the UNIQUE(tavern_handle) constraint rejects the statement). -/
def handleUsedByOther (provider providerId : String) (h : String) (db : BindingStore) : Bool :=
db.any (fun b => b.tavernHandle == some h && !(keyMatches provider providerId b))

/-- The write performed by the INSERT ... ON CONFLICT(provider, provider_id)
DO UPDATE SET tavern_handle = excluded.tavern_handle statement when no
constraint fails: update the keyed row if present, else append a new row. -/
def applyUpsert (provider providerId : String) (h : Option String) (db : BindingStore) : BindingStore :=
if db.any (keyMatches provider providerId) then
  db.map (fun b => if keyMatches provider providerId b then ⟨b.provider, b.providerId, h⟩ else b)
else db ++ [⟨provider, providerId, h⟩]

/-- db.js upsertBinding: the statement fails (SQLITE_CONSTRAINT, surfaced to
callers as the BindingConflict failure) exactly when it would set a non-NULL
tavern_handle already held by a row with a different key; on failure the
store is unchanged. -/
def upsertBinding (provider providerId : String) (tavernHandle : Option String)
    (db : BindingStore) : Except DbError Unit × BindingStore :=
match tavernHandle with
| some h =>
  if handleUsedByOther provider providerId h db then (.error .bindingConflict, db)
  else (.ok (), applyUpsert provider providerId (some h) db)
| none => (.ok (), applyUpsert provider providerId none db)

/-- db.js initDb: the schema starts empty. -/
def initDb : BindingStore := []

/-- Both UNIQUE constraints of the oauth_bindings table, as a predicate on
states: keys are pairwise distinct and non-NULL handles are pairwise
distinct. -/
def BindingWF (db : BindingStore) : Prop :=
db.Pairwise (fun a b =>
  ¬(a.provider = b.provider ∧ a.providerId = b.providerId) ∧
  ¬∃ h, a.tavernHandle = some h ∧ b.tavernHandle = some h)

/-- Binding-store states reachable from initDb through upsertBinding calls
(failed calls keep the previous state). -/
inductive ReachableBinding : BindingStore → Prop
| init : ReachableBinding initDb
| step (provider providerId : String) (h : Option String) (db : BindingStore) :
    ReachableBinding db →
    ReachableBinding (upsertBinding provider providerId h db).2

/-! ## State token store (src/oauth.js)

stateStore is a Map from the random state value to its issuedAt timestamp.
crypto.randomUUID() is modelled by letting the environment supply the fresh
value. -/

abbrev StateStore := List (String × Nat)

/-- oauth.js STATE_TTL_MS. -/
def STATE_TTL_MS : Nat := 5 * 60 * 1000

/-- oauth.js createState: record value with the current timestamp. -/
def createState (value : String) (now : Nat) (s : StateStore) : StateStore :=
mset s value now

/-- oauth.js consumeState.  Note the JS details modelled exactly: a stored
timestamp of 0 is falsy and treated like absence, and a present (nonzero)
entry is deleted before the age check, so an expired entry is deleted even
though false is returned. -/
def consumeState (state : String) (now : Nat) (s : StateStore) : Bool × StateStore :=
match mget s state with
| none => (false, s)
| some t =>
  if t == 0 then (false, s)
  else (decide (now - t ≤ STATE_TTL_MS), mdelete s state)

/-- One state-store operation, for reasoning about operation sequences. -/
inductive StOp
| create (value : String) (now : Nat)
| consume (value : String) (now : Nat)
| sweep (now : Nat)
deriving DecidableEq, Repr

/-- Does the operation issue the given value. -/
def stopCreates (v : String) : StOp → Bool
| .create w _ => w == v
| _ => false

/-- Effect of one operation on the state store; sweep models the periodic
setInterval job deleting entries with createdAt < now - STATE_TTL_MS. -/
def execStOp (s : StateStore) : StOp → StateStore
| .create v now => createState v now s
| .consume v now => (consumeState v now s).2
| .sweep now => s.filter (fun p => !(decide (p.2 < now - STATE_TTL_MS)))

/-- Effect of a sequence of operations. -/
def execStOps (s : StateStore) : List StOp → StateStore
| [] => s
| op :: ops => execStOps (execStOp s op) ops

/-! ## Authorization ticket store (src/oauth.js) -/

/-- oauth.js AUTH_TICKET_TTL_MS. -/
def AUTH_TICKET_TTL_MS : Nat := 5 * 60 * 1000

/-- An authorizationTickets entry. -/
structure TicketEntry where
  provider : String
  providerId : String
  username : String
  createdAt : Nat
  expiresAt : Nat
  used : Bool
deriving DecidableEq, Repr

/-- The identity claim returned by getAuthorizationTicket. -/
structure TicketClaim where
  provider : String
  providerId : String
  username : String
deriving DecidableEq, Repr

abbrev TicketStore := List (String × TicketEntry)

/-- oauth.js createAuthorizationTicket (the random UUID is supplied by the
environment). -/
def createAuthorizationTicket (ticket provider providerId username : String)
    (now : Nat) (s : TicketStore) : TicketStore :=
mset s ticket ⟨provider, providerId, username, now, now + AUTH_TICKET_TTL_MS, false⟩

/-- oauth.js getAuthorizationTicket.  Modelled exactly: a falsy (empty)
ticket id is absent; a used entry is reported absent without being touched;
an entry past its expiry is deleted and reported absent; otherwise the claim
projection is returned with the store untouched. -/
def getAuthorizationTicket (ticket : String) (now : Nat) (s : TicketStore) :
    Option TicketClaim × TicketStore :=
if ticket == "" then (none, s)
else match mget s ticket with
| none => (none, s)
| some entry =>
  if entry.used then (none, s)
  else if decide (entry.expiresAt < now) then (none, mdelete s ticket)
  else (some ⟨entry.provider, entry.providerId, entry.username⟩, s)

/-- oauth.js finalizeAuthorizationTicket: mark used and delete; the net
effect on the store is deletion of the entry (a falsy ticket id or a missing
entry is a no-op). -/
def finalizeAuthorizationTicket (ticket : String) (s : TicketStore) : TicketStore :=
if ticket == "" then s
else match mget s ticket with
| none => s
| some _ => mdelete s ticket

/-! ## Session cookie extraction (src/sillyTavernClient.js, extractSessionCookies) -/

/-- The name=value token of one Set-Cookie value: trim, then the part before
the first semicolon (JS rawCookie.trim().split(";")[0]). -/
def cookieToken (raw : String) : String :=
⟨(trimChars raw.data).takeWhile (fun c => !(c == ';'))⟩

/-- The filter of extractSessionCookies, applied to the lowercased token:
startsWith "session-" or includes "session-" or includes ".sig". -/
def isSessionCookie (token : String) : Bool :=
let lower := lowerChars token.data
leadsWith "session-".data lower || containsSeq "session-".data lower ||
  containsSeq ".sig".data lower

/-- The sessionParts list accumulated by the loop of extractSessionCookies:
tokens of the given Set-Cookie values that are truthy and match the filter. -/
def sessionParts (headerValues : List String) : List String :=
(headerValues.map cookieToken).filter (fun t => !(t == "") && isSessionCookie t)

/-- Order-preserving deduplication with a seen set (the Set-based filter of
extractSessionCookies). -/
def dedupeParts (seen : List String) : List String → List String
| [] => []
| x :: xs => if x ∈ seen then dedupeParts seen xs else x :: dedupeParts (x :: seen) xs

/-- Join with the "; " separator used by extractSessionCookies. -/
def joinParts : List String → String
| [] => ""
| [x] => x
| x :: y :: rest => x ++ "; " ++ joinParts (y :: rest)

/-- sillyTavernClient.js extractSessionCookies on a list of Set-Cookie header
values (an absent header behaves like the empty list: both yield null). -/
def extractSessionCookies (setCookieHeaders : List String) : Option String :=
let parts := sessionParts setCookieHeaders
if parts.isEmpty then none else some (joinParts (dedupeParts [] parts))

/-! ## Handle normalization (src/sillyTavernClient.js, normalizeHandle)

normalizeHandle is lodash kebabCase applied to the trimmed input.  The
model implements lodash's word splitting faithfully for ASCII input:
apostrophes are removed, non-alphanumeric characters separate words, and
words additionally break at lower-to-upper transitions, letter/digit
transitions, and before the last upper of an uppercase run followed by a
lowercase letter; the words are lowercased and joined with "-". -/

/-- Remove ASCII and right-single-quote apostrophes (lodash reApos). -/
def removeApos (l : List Char) : List Char :=
l.filter (fun c => !(c == Char.ofNat 39) && !(c == Char.ofNat 8217))

/-- Push a (reversed) accumulated word onto a word list if it is nonempty. -/
def pushWord (acc : List Char) (ws : List (List Char)) : List (List Char) :=
if acc.isEmpty then ws else acc.reverse :: ws

/-- lodash word boundary between the previous character p and the current
character c, with rest the characters after c. -/
def camelBoundary (p c : Char) (rest : List Char) : Bool :=
(isLowerA p && isUpperA c) || (isAlphaA p && isDigitA c) || (isDigitA p && isAlphaA c) ||
  (isUpperA p && isUpperA c && (match rest with | r :: _ => isLowerA r | [] => false))

/-- Word-splitting pass of lodash kebabCase (acc holds the current word
reversed). -/
def wordsAux : List Char → List Char → List (List Char)
| acc, [] => pushWord acc []
| acc, c :: rest =>
  if !(isAlnumA c) then pushWord acc (wordsAux [] rest)
  else match acc with
  | [] => wordsAux [c] rest
  | p :: _ =>
    if camelBoundary p c rest then pushWord acc (wordsAux [c] rest)
    else wordsAux (c :: acc) rest

/-- Join words with single dashes (the reduce step of lodash kebabCase). -/
def joinDash : List (List Char) → List Char
| [] => []
| [w] => w
| w :: v :: rest => w ++ '-' :: joinDash (v :: rest)

/-- lodash kebabCase (ASCII scope): split into words, lowercase each, join
with "-". -/
def kebabCase (s : String) : String :=
⟨joinDash ((wordsAux [] (removeApos s.data)).map lowerChars)⟩

/-- sillyTavernClient.js normalizeHandle: kebabCase of the trimmed handle. -/
def normalizeHandle (handle : String) : String := kebabCase (trimS handle)

/-! ## Remote session client (src/sillyTavernClient.js)

Each fetch call is modelled by the response value it would produce.  ok is
the fetch Response.ok predicate (status in 200..299).  The JSON body fields
that the client reads are modelled explicitly: token (of /csrf-token),
admin (of /api/users/me), handle (of /api/users/create). -/

/-- A fetch response as consumed by the client. -/
structure HttpResp where
  status : Nat
  setCookie : List String
  jsonToken : Option String
  jsonAdmin : Bool
  jsonHandle : String
  body : String
deriving DecidableEq, Repr

/-- fetch Response.ok: 200 <= status < 300. -/
def okb (r : HttpResp) : Bool := 200 ≤ r.status && r.status < 300

/-- The error kinds thrown by the client (each corresponds to one throw site;
errMessage below gives the exact JS message). -/
inductive StError
| missingFields
| invalidHandle
| csrfFetchFailed (status : Nat)
| missingSessionCredential (fromLogin : Bool)
| adminLoginFailed (status : Nat) (body : String)
| adminSessionInvalid (status : Nat)
| notAnAdministrator
| handleAlreadyExists
| createAccountFailed (status : Nat) (body : String)
deriving DecidableEq, Repr

/-- The SessionContext class: session cookie plus CSRF token. -/
structure SessionContext where
  cookie : Option String
  csrfToken : Option String
deriving DecidableEq, Repr

/-- The responses of the five network calls a registerUser run performs, in
order: csrf1 (token fetch of the login step), login, me (assertAdmin),
csrf2 (token fetch for the create call), create. -/
structure RemoteResponses where
  csrf1 : HttpResp
  login : HttpResp
  me : HttpResp
  csrf2 : HttpResp
  create : HttpResp
deriving DecidableEq, Repr

/-- sillyTavernClient.js fetchCsrfToken: on a non-ok response fail; else the
effective cookie is the freshly extracted session cookie, falling back
(?? null coalescing) to the cookie passed in; if that is falsy and the
returned token is not "disabled", fail with the missing-credential error. -/
def fetchCsrfToken (cookie : Option String) (r : HttpResp) : Except StError SessionContext :=
if !(okb r) then .error (.csrfFetchFailed r.status)
else
  let sessionCookie := extractSessionCookies r.setCookie
  let effectiveCookie := match sessionCookie with
  | some c => some c
  | none => cookie
  if !(truthy effectiveCookie) && !(r.jsonToken == some "disabled") then
    .error (.missingSessionCredential false)
  else .ok ⟨effectiveCookie, r.jsonToken⟩

/-- sillyTavernClient.js assertAdmin: non-ok fails with the session-invalid
error; a falsy admin flag fails with the not-an-administrator error. -/
def assertAdmin (cookie : Option String) (r : HttpResp) : Except StError Unit :=
if !(okb r) then .error (.adminSessionInvalid r.status)
else if !(r.jsonAdmin) then .error .notAnAdministrator
else .ok ()

/-- The tail of loginAsAdmin after an ok login response (the source's
extractSessionCookies update, cookie check, and assertAdmin call):
updatedCookie is the extraction from the login response's Set-Cookie
headers; it replaces the token-fetch session cookie only when truthy. -/
def loginFinish (updatedCookie : Option String) (session : SessionContext)
    (me : HttpResp) : Except StError SessionContext :=
let cookie := if truthy updatedCookie then updatedCookie else session.cookie
if !(truthy cookie) then .error (.missingSessionCredential true)
else match assertAdmin cookie me with
| .error e => .error e
| .ok _ => .ok ⟨cookie, session.csrfToken⟩

/-- sillyTavernClient.js loginAsAdmin: fetch a CSRF token (no cookie), POST
the admin credentials (a non-ok response fails with the login-failed error),
then run the loginFinish tail. -/
def loginAsAdmin (r : RemoteResponses) : Except StError SessionContext :=
match fetchCsrfToken none r.csrf1 with
| .error e => .error e
| .ok session =>
  if !(okb r.login) then .error (.adminLoginFailed r.login.status r.login.body)
  else loginFinish (extractSessionCookies r.login.setCookie) session r.me

/-- sillyTavernClient.js registerUser: reject falsy handle or name; reject a
handle whose normalization is empty; log in as admin, fetch a second CSRF
token with the session cookie, POST the create payload, and map the create
response: 409 to the already-exists error, other non-ok to the
create-failed error with status and body, ok to the handle reported by the
remote service (paired with the trimmed display name of the payload). -/
def registerUser (handle name password : String) (r : RemoteResponses) :
    Except StError (String × String) :=
if handle == "" || name == "" then .error .missingFields
else
  if normalizeHandle handle == "" then .error .invalidHandle
  else match loginAsAdmin r with
  | .error e => .error e
  | .ok session =>
    match fetchCsrfToken session.cookie r.csrf2 with
    | .error e => .error e
    | .ok _createContext =>
      if r.create.status == 409 then .error .handleAlreadyExists
      else if !(okb r.create) then .error (.createAccountFailed r.create.status r.create.body)
      else .ok (r.create.jsonHandle, trimS name)

/-- The JS message string of each thrown error (used by the server's
deriveStatus). -/
def errMessage : StError → String
| .missingFields => "用户标识和显示名称均为必填项"
| .invalidHandle => "无法将该用户标识转换为有效格式"
| .csrfFetchFailed status => "无法获取 CSRF 令牌：" ++ toString status
| .missingSessionCredential false => "未从 SillyTavern 收到会话 Cookie"
| .missingSessionCredential true => "管理员登录成功，但未收到会话 Cookie"
| .adminLoginFailed status body => "管理员登录失败：" ++ toString status ++ " " ++ body
| .adminSessionInvalid status => "管理员会话验证失败：" ++ toString status
| .notAnAdministrator => "配置的管理员账户没有管理员权限"
| .handleAlreadyExists => "该用户已存在"
| .createAccountFailed status body => "创建用户请求失败：" ++ toString status ++ " " ++ body

/-! ## The ticket-based POST /register handler (server entry, src/db.js and
src/oauth.js callers) and src/server.js deriveStatus -/

/-- The raw body fields the handler reads. -/
structure RegBody where
  handle : String
  name : String
  password : String
  ticket : String
deriving DecidableEq, Repr

/-- Handler-level failures (each corresponds to one throw site of the
handler or a propagated client/db error). -/
inductive HandlerError
| badInput (message : String)
| ticketInvalid
| providerDisabled
| alreadyBound
| clientError (e : StError)
| bindingConflict
deriving DecidableEq, Repr

/-- The handler's sanitizeInput: trim all four fields and validate presence
and length in the JS order. -/
def sanitizeInput (body : RegBody) : Except HandlerError (String × String × String × String) :=
let handle := trimS body.handle
let name := trimS body.name
let password := trimS body.password
let ticket := trimS body.ticket
if handle == "" then .error (.badInput "用户标识不能为空")
else if name == "" then .error (.badInput "显示名称不能为空")
else if decide (64 < handle.length) then .error (.badInput "用户标识过长（最多 64 个字符）")
else if decide (64 < name.length) then .error (.badInput "显示名称过长（最多 64 个字符）")
else if password == "" then .error (.badInput "密码不能为空")
else if decide (128 < password.length) then .error (.badInput "密码过长（最多 128 个字符）")
else if ticket == "" then .error (.badInput "缺少授权凭据，请重新完成第三方登录")
else .ok (handle, name, password, ticket)

/-- The handler's ensureOAuthAvailability: provider must be configured and
the identity must not already carry a truthy tavern_handle binding. -/
def ensureOAuthAvailability (provider providerId : String) (avail : List String)
    (db : BindingStore) : Except HandlerError (String × String) :=
if !(avail.contains provider) then .error .providerDisabled
else match findBinding provider providerId db with
| some b => if truthy b.tavernHandle then .error .alreadyBound else .ok (provider, providerId)
| none => .ok (provider, providerId)

/-- The remote-and-persist tail of the handler: run registerUser; on success
upsert the binding with the handle reported by the remote service and
finalize the ticket; a thrown upsert conflict is caught before the
finalize call runs. -/
def registerCore (handle name password ticket : String) (c : TicketClaim)
    (ts : TicketStore) (db : BindingStore) (r : RemoteResponses) :
    Except HandlerError String × TicketStore × BindingStore :=
match registerUser handle name password r with
| .error e => (.error (.clientError e), ts, db)
| .ok result =>
  match upsertBinding c.provider c.providerId (some result.1) db with
  | (.error _, db1) => (.error .bindingConflict, ts, db1)
  | (.ok _, db1) => (.ok result.1, finalizeAuthorizationTicket ticket ts, db1)

/-- The ticket-based POST /register handler: sanitize, peek the ticket,
check OAuth availability, then run the remote call and persist.  The
returned triple is (response, ticket store, binding store). -/
def postRegister (body : RegBody) (now : Nat) (ts : TicketStore) (db : BindingStore)
    (avail : List String) (r : RemoteResponses) :
    Except HandlerError String × TicketStore × BindingStore :=
match sanitizeInput body with
| .error e => (.error e, ts, db)
| .ok (handle, name, password, ticket) =>
  match getAuthorizationTicket ticket now ts with
  | (none, ts1) => (.error .ticketInvalid, ts1, db)
  | (some c, ts1) =>
    match ensureOAuthAvailability c.provider c.providerId avail db with
    | .error e => (.error e, ts1, db)
    | .ok _ => registerCore handle name password ticket c ts1 db r

/-- src/server.js deriveStatus: map an error message to an HTTP status by
substring tests, in the JS order. -/
def deriveStatus (message : String) : Nat :=
if message == "" then 500
else if containsSub message "必填" || containsSub message "不能为空" ||
    containsSub message "Missing required" then 400
else if containsSub message "已存在" then 409
else if containsSub message "管理员登录失败" || containsSub message "管理员账户" then 502
else if containsSub message "CSRF" || containsSub message "会话 Cookie" then 502
else 500

/-! ## Definitions written from the specification's words, for comparison
with the code's behavior (refinement checks) -/

/-- Maximal alphanumeric runs of a character list (no case or digit
boundaries), used by the spec-worded normalization. -/
def runsAux : List Char → List Char → List (List Char)
| acc, [] => pushWord acc []
| acc, c :: rest =>
  if isAlnumA c then runsAux (c :: acc) rest
  else pushWord acc (runsAux [] rest)

/-- The normalization as the specification words it for createAccount:
lowercased, non-alphanumeric runs collapsed to single separators, leading
and trailing separators trimmed (the spec's length cap has no stated value
and is omitted; the comparison input is short enough that no cap could
matter). -/
def specNormalize (s : String) : String :=
⟨joinDash ((runsAux [] s.data).map lowerChars)⟩

/-- The name of a cookie token: the part before the first "=". -/
def cookieName (token : String) : String :=
⟨token.data.takeWhile (fun c => !(c == '='))⟩

/-- The session filter as the specification words it: the cookie's NAME
matches the pattern (case-insensitive substring "session-", or the
signature suffix ".sig"). -/
def specSessionMatch (token : String) : Bool :=
let lowerName := lowerChars (cookieName token).data
containsSeq "session-".data lowerName || containsSeq ".sig".data lowerName

/-- The session-credential extraction as the specification words it: select
the cookies whose name matches, deduplicate preserving order, null when
none match. -/
def specExtractSessionCredential (headerValues : List String) : Option String :=
let parts := (headerValues.map cookieToken).filter
  (fun t => !(t == "") && specSessionMatch t)
if parts.isEmpty then none else some (joinParts (dedupeParts [] parts))

deriving instance DecidableEq for Except

/-! ## Shared lemmas about the map model -/

theorem mget_mdelete_self {α : Type} (m : List (String × α)) (k : String) :
    mget (mdelete m k) k = none := by
  simp only [mget, mdelete, Option.map_eq_none', List.find?_eq_none]
  intro p hp
  have h := (List.mem_filter.mp hp).2
  simpa using h

theorem mget_filter_none {α : Type} (m : List (String × α)) (k : String)
    (q : String × α → Bool) (h : mget m k = none) : mget (m.filter q) k = none := by
  simp only [mget, Option.map_eq_none', List.find?_eq_none] at h ⊢
  intro p hp
  exact h p (List.mem_filter.mp hp).1

theorem mget_mset_other {α : Type} (m : List (String × α)) (k w : String) (v : α)
    (hk : (w == k) = false) (h : mget m k = none) : mget (mset m w v) k = none := by
  simp only [mget, Option.map_eq_none', List.find?_eq_none] at h ⊢
  simp only [mset]
  split
  · intro p hp
    rcases List.mem_map.mp hp with ⟨q, hq, hfq⟩
    by_cases hqw : (q.1 == w) = true
    · simp only [hqw, if_pos] at hfq
      subst hfq
      simpa using hk
    · rw [if_neg (by simp [hqw])] at hfq
      subst hfq
      exact h q hq
  · intro p hp
    rcases List.mem_append.mp hp with hp | hp
    · exact h p hp
    · simp only [List.mem_singleton] at hp
      subst hp
      simpa using hk

/-! ## C3: consumeState behavior -/

/-- C3 counterexample: the claim says a present-but-expired token is
rejected with no side effects, but consumeState deletes the entry: with the
store holding token "s" issued at 1 and now = 300002 (age over the 5-minute
TTL), consume returns false yet the entry is gone. -/
theorem c3_counterexample :
    (consumeState "s" 300002 [("s", 1)]).1 = false ∧
    (consumeState "s" 300002 [("s", 1)]).2 ≠ [("s", 1)] := by
  decide

/-- C3 amended: consume(token) returns true iff the token is present with a
nonzero issuedAt and now - issuedAt is within the 5-minute TTL; whenever the
token is present with nonzero issuedAt the entry is deleted (even when false
is returned because the token expired); when the token is absent (or its
stored timestamp is the falsy 0) the store is unchanged. -/
theorem c3_consume_spec (state : String) (now : Nat) (s : StateStore) :
    ((consumeState state now s).1 = true ↔
      ∃ t, mget s state = some t ∧ t ≠ 0 ∧ now - t ≤ STATE_TTL_MS) ∧
    (∀ t, mget s state = some t → t ≠ 0 →
      (consumeState state now s).2 = mdelete s state) ∧
    ((mget s state = none ∨ mget s state = some 0) →
      (consumeState state now s).2 = s) := by
  refine ⟨?_, ?_, ?_⟩
  · cases hm : mget s state with
    | none => simp [consumeState, hm]
    | some t =>
      by_cases h0 : t = 0
      · subst h0
        simp [consumeState, hm]
      · simp only [consumeState, hm]
        rw [if_neg (by simpa using h0)]
        simp only [decide_eq_true_eq]
        constructor
        · intro hle
          exact ⟨t, rfl, h0, hle⟩
        · rintro ⟨t', ht', _, hle⟩
          cases ht'
          exact hle
  · intro t hm h0
    simp only [consumeState, hm]
    rw [if_neg (by simpa using h0)]
  · rintro (hm | hm) <;> simp [consumeState, hm]

/-- C3 witness: a fresh token consumes successfully and is deleted. -/
theorem c3_witness :
    (consumeState "s" 3 [("s", 1)]).1 = true ∧
    (consumeState "s" 3 [("s", 1)]).2 = mdelete [("s", 1)] "s" :=
  ⟨(c3_consume_spec "s" 3 [("s", 1)]).1.mpr ⟨1, by decide, by decide, by decide⟩,
   (c3_consume_spec "s" 3 [("s", 1)]).2.1 1 (by decide) (by decide)⟩

/-! ## C5: at-most-once consumption of state tokens -/

theorem consume_true_absent (v : String) (now : Nat) (s : StateStore)
    (h : (consumeState v now s).1 = true) :
    mget (consumeState v now s).2 v = none := by
  cases hm : mget s v with
  | none => simp [consumeState, hm] at h
  | some t =>
    by_cases h0 : (t == 0) = true
    · simp [consumeState, hm, h0] at h
    · simp only [consumeState, hm, h0, Bool.false_eq_true, if_neg]
      exact mget_mdelete_self s v

theorem absent_consume_false (v : String) (now : Nat) (s : StateStore)
    (h : mget s v = none) : (consumeState v now s).1 = false := by
  simp [consumeState, h]

theorem absent_execStOp (v : String) (s : StateStore) (op : StOp)
    (h : mget s v = none) (hc : stopCreates v op = false) :
    mget (execStOp s op) v = none := by
  cases op with
  | create w now =>
    simp only [stopCreates] at hc
    exact mget_mset_other s v w now hc h
  | consume w now =>
    simp only [execStOp]
    cases hm : mget s w with
    | none => simpa [consumeState, hm] using h
    | some t =>
      by_cases h0 : (t == 0) = true
      · simpa [consumeState, hm, h0] using h
      · simp only [consumeState, hm, h0, Bool.false_eq_true, if_neg]
        exact mget_filter_none s v _ h
  | sweep now =>
    exact mget_filter_none s v _ h

theorem absent_execStOps (v : String) (s : StateStore) (ops : List StOp)
    (h : mget s v = none)
    (hc : (ops.all fun op => !(stopCreates v op)) = true) :
    mget (execStOps s ops) v = none := by
  induction ops generalizing s with
  | nil => exact h
  | cons op ops ih =>
    simp only [List.all_cons, Bool.and_eq_true, Bool.not_eq_true'] at hc
    exact ih (execStOp s op) (absent_execStOp v s op h hc.1) hc.2

/-- C5: once consume(t) has returned true, no later consume(t) can return
true again across any sequence of store operations that does not re-issue
the very same random value t (crypto.randomUUID freshness); in particular an
immediate second consume(t) returns false (the empty operation list). -/
theorem c5_consume_at_most_once (s : StateStore) (v : String) (now1 : Nat)
    (h1 : (consumeState v now1 s).1 = true)
    (ops : List StOp) (hops : (ops.all fun op => !(stopCreates v op)) = true)
    (now2 : Nat) :
    (consumeState v now2 (execStOps (consumeState v now1 s).2 ops)).1 = false := by
  apply absent_consume_false
  exact absent_execStOps v _ ops (consume_true_absent v now1 s h1) hops

/-- C5 witness: consume "a" succeeds once, and after an unrelated issuance
the second consume of "a" returns false. -/
theorem c5_witness :
    (consumeState "a" 8 (execStOps (consumeState "a" 6 [("a", 5)]).2
      [StOp.create "b" 7])).1 = false :=
  c5_consume_at_most_once [("a", 5)] "a" 6 (by decide) [StOp.create "b" 7] (by decide) 8

/-! ## C4: getAuthorizationTicket (peek) behavior -/

/-- C4 counterexample: the claim says peek never mutates the ticket store,
but getAuthorizationTicket deletes a present, unused, expired entry: with a
ticket expiring at 5 and now = 6, peek reports absent and the entry is gone. -/
theorem c4_counterexample :
    (getAuthorizationTicket "t" 6 [("t", ⟨"github", "42", "alice", 0, 5, false⟩)]).1 = none ∧
    (getAuthorizationTicket "t" 6 [("t", ⟨"github", "42", "alice", 0, 5, false⟩)]).2 ≠
      [("t", ⟨"github", "42", "alice", 0, 5, false⟩)] := by
  decide

/-- C4 amended: peek returns the stored claim iff the (nonempty) ticket id
exists, is unused, and now <= expiresAt, and reports absent otherwise; it
leaves the store unchanged in every case except one: a present, unused entry
past its expiry is deleted by the lookup. -/
theorem c4_peek_spec (ticket : String) (now : Nat) (s : TicketStore) :
    (∀ c, (getAuthorizationTicket ticket now s).1 = some c ↔
      (ticket ≠ "" ∧ ∃ e, mget s ticket = some e ∧ e.used = false ∧
        now ≤ e.expiresAt ∧ c = ⟨e.provider, e.providerId, e.username⟩)) ∧
    ((∃ e, ticket ≠ "" ∧ mget s ticket = some e ∧ e.used = false ∧ e.expiresAt < now) →
      (getAuthorizationTicket ticket now s).2 = mdelete s ticket) ∧
    ((¬∃ e, ticket ≠ "" ∧ mget s ticket = some e ∧ e.used = false ∧ e.expiresAt < now) →
      (getAuthorizationTicket ticket now s).2 = s) := by
  refine ⟨?_, ?_, ?_⟩
  · intro c
    by_cases ht : ticket = ""
    · simp [getAuthorizationTicket, ht]
    · cases hm : mget s ticket with
      | none => simp [getAuthorizationTicket, ht, hm]
      | some e =>
        by_cases hu : e.used
        · simp [getAuthorizationTicket, ht, hm, hu]
        · by_cases hexp : e.expiresAt < now
          · simp [getAuthorizationTicket, ht, hm, hu, hexp]
          · simp only [getAuthorizationTicket, ht, hm, hu]
            simp only [beq_iff_eq, ht, if_false, Bool.false_eq_true, if_neg,
              decide_eq_true_eq, hexp]
            constructor
            · intro hc
              exact ⟨ht, e, rfl, by simpa using hu, by omega, by
                cases hc; rfl⟩
            · rintro ⟨_, e', he', _, _, hc⟩
              cases he'
              simp [hc]
  · rintro ⟨e, ht, hm, hu, hexp⟩
    simp [getAuthorizationTicket, ht, hm, hu, hexp]
  · intro hno
    by_cases ht : ticket = ""
    · simp [getAuthorizationTicket, ht]
    · cases hm : mget s ticket with
      | none => simp [getAuthorizationTicket, ht, hm]
      | some e =>
        by_cases hu : e.used
        · simp [getAuthorizationTicket, ht, hm, hu]
        · by_cases hexp : e.expiresAt < now
          · exact absurd ⟨e, ht, hm, by simpa using hu, hexp⟩ hno
          · simp [getAuthorizationTicket, ht, hm, hu, hexp]

/-- C4 witness: a live ticket peeks to its claim, and since it is not
expired the store is untouched. -/
theorem c4_witness :
    (getAuthorizationTicket "t" 3 [("t", ⟨"github", "42", "alice", 0, 5, false⟩)]).1 =
      some ⟨"github", "42", "alice"⟩ ∧
    (getAuthorizationTicket "t" 3 [("t", ⟨"github", "42", "alice", 0, 5, false⟩)]).2 =
      [("t", ⟨"github", "42", "alice", 0, 5, false⟩)] :=
  ⟨((c4_peek_spec "t" 3 [("t", ⟨"github", "42", "alice", 0, 5, false⟩)]).1 _).mpr
    ⟨by decide, ⟨"github", "42", "alice", 0, 5, false⟩, by decide, rfl, by decide, rfl⟩,
   (c4_peek_spec "t" 3 [("t", ⟨"github", "42", "alice", 0, 5, false⟩)]).2.2 (by
    rintro ⟨e, -, he, -, hexp⟩
    have h0 : mget [("t", (⟨"github", "42", "alice", 0, 5, false⟩ : TicketEntry))] "t" =
        some ⟨"github", "42", "alice", 0, 5, false⟩ := rfl
    rw [h0] at he
    cases Option.some.inj he
    exact absurd hexp (by decide))⟩

/-! ## C1 and C9: the identity binding store -/

theorem keyMatches_iff (provider providerId : String) (b : Binding) :
    keyMatches provider providerId b = true ↔
      b.provider = provider ∧ b.providerId = providerId := by
  simp [keyMatches]

theorem handleUsed_false_iff (provider providerId h : String) (db : BindingStore) :
    handleUsedByOther provider providerId h db = false ↔
      ∀ b ∈ db, b.tavernHandle = some h → keyMatches provider providerId b = true := by
  constructor
  · intro hf b hb hh
    have hnb := List.any_eq_false.mp hf b hb
    by_contra hk
    apply hnb
    simp only [Bool.and_eq_true, beq_iff_eq, Bool.not_eq_true']
    exact ⟨hh, Bool.not_eq_true _ |>.mp hk⟩
  · intro hall
    apply List.any_eq_false.mpr
    intro b hb hcl
    simp only [Bool.and_eq_true, beq_iff_eq, Bool.not_eq_true'] at hcl
    exact absurd (hall b hb hcl.1) (by simp [hcl.2])

theorem applyUpsert_WF (provider providerId : String) (h : Option String)
    (db : BindingStore) (hwf : BindingWF db)
    (hok : ∀ b ∈ db, keyMatches provider providerId b = false →
      ∀ hv, h = some hv → b.tavernHandle ≠ some hv) :
    BindingWF (applyUpsert provider providerId h db) := by
  unfold BindingWF applyUpsert
  split
  case isTrue hany =>
    rw [List.pairwise_map]
    refine List.Pairwise.imp_of_mem ?_ hwf
    intro a b ha hb hab
    by_cases hka : keyMatches provider providerId a = true
    · by_cases hkb : keyMatches provider providerId b = true
      · exact absurd (by
          have h1 := (keyMatches_iff provider providerId a).mp hka
          have h2 := (keyMatches_iff provider providerId b).mp hkb
          exact ⟨h1.1.trans h2.1.symm, h1.2.trans h2.2.symm⟩) hab.1
      · simp only [hka, if_pos, hkb, Bool.false_eq_true, if_neg]
        refine ⟨hab.1, ?_⟩
        rintro ⟨hh, hfa, hfb⟩
        exact hok b hb (Bool.not_eq_true _ |>.mp hkb) hh hfa hfb
    · by_cases hkb : keyMatches provider providerId b = true
      · simp only [hka, Bool.false_eq_true, if_neg, hkb, if_pos]
        refine ⟨hab.1, ?_⟩
        rintro ⟨hh, hfa, hfb⟩
        exact hok a ha (Bool.not_eq_true _ |>.mp hka) hh hfb hfa
      · simpa only [hka, hkb, Bool.false_eq_true, if_neg] using hab
  case isFalse hany =>
    rw [List.pairwise_append]
    refine ⟨hwf, by simp, ?_⟩
    intro a ha b hb
    simp only [List.mem_singleton] at hb
    subst hb
    have hka : keyMatches provider providerId a = false := by
      have := List.any_eq_false.mp (Bool.not_eq_true _ |>.mp (by simpa using hany)) a ha
      exact Bool.not_eq_true _ |>.mp this
    constructor
    · intro hcon
      apply absurd ((keyMatches_iff provider providerId a).mpr ⟨hcon.1, hcon.2⟩)
      simp [hka]
    · rintro ⟨hh, hfa, hfb⟩
      exact hok a ha hka hh hfb hfa

theorem upsertBinding_preserves_WF (provider providerId : String) (h : Option String)
    (db : BindingStore) (hwf : BindingWF db) :
    BindingWF (upsertBinding provider providerId h db).2 := by
  cases h with
  | none =>
    simp only [upsertBinding]
    exact applyUpsert_WF provider providerId none db hwf
      (by intro b _ _ hv heq; cases heq)
  | some hv =>
    simp only [upsertBinding]
    by_cases hused : handleUsedByOther provider providerId hv db = true
    · simpa [hused] using hwf
    · have hfree := Bool.not_eq_true _ |>.mp hused
      simp only [hfree, Bool.false_eq_true, if_neg]
      refine applyUpsert_WF provider providerId (some hv) db hwf ?_
      intro b hb hk hv' heq hcontra
      cases heq
      exact absurd ((handleUsed_false_iff provider providerId hv db).mp hfree b hb hcontra)
        (by simp [hk])

/-- C1: in every binding-store state reachable from the empty schema through
upsertBinding calls, (provider, providerId) pairs are unique and every
non-null tavern_handle is claimed by at most one pair; and any upsertBinding
that would set a handle already used by a different pair fails with the
binding conflict and leaves the store unchanged. -/
theorem c1_binding_uniqueness :
    (∀ db, ReachableBinding db → BindingWF db) ∧
    (∀ (provider providerId h : String) (db : BindingStore),
      handleUsedByOther provider providerId h db = true →
      upsertBinding provider providerId (some h) db = (.error .bindingConflict, db)) := by
  constructor
  · intro db hr
    induction hr with
    | init => exact List.Pairwise.nil
    | step provider providerId h db _ ih =>
      exact upsertBinding_preserves_WF provider providerId h db ih
  · intro provider providerId h db hused
    simp [upsertBinding, hused]

/-- C1 witness: a state reached by one successful upsert satisfies the
invariant, and a conflicting upsert on a concrete store is rejected with the
store unchanged. -/
theorem c1_witness :
    BindingWF (upsertBinding "github" "1" (some "alice") initDb).2 ∧
    upsertBinding "github" "2" (some "alice") [⟨"github", "1", some "alice"⟩] =
      (.error .bindingConflict, [⟨"github", "1", some "alice"⟩]) :=
  ⟨c1_binding_uniqueness.1 _ (.step "github" "1" (some "alice") initDb .init),
   c1_binding_uniqueness.2 "github" "2" "alice" [⟨"github", "1", some "alice"⟩] (by decide)⟩

theorem findBinding_applyUpsert (provider providerId : String) (h : Option String)
    (db : BindingStore) :
    (findBinding provider providerId (applyUpsert provider providerId h db)).map
      (fun b => b.tavernHandle) = some h := by
  induction db with
  | nil =>
    simp [applyUpsert, findBinding, keyMatches]
  | cons b bs ih =>
    by_cases hk : keyMatches provider providerId b = true
    · have hany : ((b :: bs).any (keyMatches provider providerId)) = true := by
        simp [List.any_cons, hk]
      have hk2 : keyMatches provider providerId
          (⟨b.provider, b.providerId, h⟩ : Binding) = true := by
        rcases (keyMatches_iff provider providerId b).mp hk with ⟨h1, h2⟩
        exact (keyMatches_iff provider providerId _).mpr ⟨h1, h2⟩
      simp [applyUpsert, hany, findBinding, hk, hk2]
    · have hkf : keyMatches provider providerId b = false := Bool.not_eq_true _ |>.mp hk
      cases hany : (bs.any (keyMatches provider providerId)) with
      | true =>
        have hanyc : ((b :: bs).any (keyMatches provider providerId)) = true := by
          simp [List.any_cons, hany]
        have ihx := ih
        simp only [applyUpsert, hany, if_pos] at ihx
        simp only [applyUpsert, hanyc, if_pos, List.map_cons, findBinding,
          List.find?_cons, hkf, Bool.false_eq_true, if_neg]
        simpa [findBinding, hkf] using ihx
      | false =>
        have hanyc : ((b :: bs).any (keyMatches provider providerId)) = false := by
          simp [List.any_cons, hany, hkf]
        have ihx := ih
        simp only [applyUpsert, hany, Bool.false_eq_true, if_neg] at ihx
        simp only [applyUpsert, hanyc, Bool.false_eq_true, if_neg, List.cons_append,
          findBinding, List.find?_cons, hkf]
        simpa [findBinding, hkf] using ihx

/-- C9: if the handle h is not already bound to a different
(provider, providerId) pair, upsertBinding(p, id, h) followed immediately by
findBinding(p, id) returns a binding whose tavern_handle equals h. -/
theorem c9_upsert_find_roundtrip (provider providerId h : String) (db : BindingStore)
    (hfree : handleUsedByOther provider providerId h db = false) :
    (findBinding provider providerId (upsertBinding provider providerId (some h) db).2).map
      (fun b => b.tavernHandle) = some (some h) := by
  simp only [upsertBinding, hfree, Bool.false_eq_true, if_neg]
  exact findBinding_applyUpsert provider providerId (some h) db

/-- C9 witness: the round trip on the empty store. -/
theorem c9_witness :
    (findBinding "github" "1" (upsertBinding "github" "1" (some "alice") []).2).map
      (fun b => b.tavernHandle) = some (some "alice") :=
  c9_upsert_find_roundtrip "github" "1" "alice" [] (by decide)

/-! ## C2: the login step's session credential -/

theorem fetchCsrfToken_errors (cookie : Option String) (r : HttpResp) (e : StError)
    (h : fetchCsrfToken cookie r = .error e) :
    e = .csrfFetchFailed r.status ∨ e = .missingSessionCredential false := by
  simp only [fetchCsrfToken] at h
  split at h
  · exact Or.inl (Except.error.inj h).symm
  · split at h
    · exact Or.inr (Except.error.inj h).symm
    · cases h

theorem assertAdmin_errors (cookie : Option String) (r : HttpResp) (e : StError)
    (h : assertAdmin cookie r = .error e) :
    e = .adminSessionInvalid r.status ∨ e = .notAnAdministrator := by
  unfold assertAdmin at h
  split at h
  · exact Or.inl (Except.error.inj h).symm
  · split at h
    · exact Or.inr (Except.error.inj h).symm
    · cases h

/-- C2 counterexample: the claim says a login response yielding no
credential makes the operation fail with the missing-credential error; but
with a token-fetch response carrying a session cookie and a 200 login
response with no Set-Cookie header, loginAsAdmin succeeds and keeps the
token-fetch cookie. -/
theorem c2_counterexample :
    extractSessionCookies ([] : List String) = none ∧
    loginAsAdmin ⟨⟨200, ["session-a=1; HttpOnly"], some "tok", true, "", ""⟩,
        ⟨200, [], none, true, "", ""⟩, ⟨200, [], none, true, "", ""⟩,
        ⟨200, [], none, true, "", ""⟩, ⟨200, [], none, true, "", ""⟩⟩ =
      .ok ⟨some "session-a=1", some "tok"⟩ ∧
    loginAsAdmin ⟨⟨200, ["session-a=1; HttpOnly"], some "tok", true, "", ""⟩,
        ⟨200, [], none, true, "", ""⟩, ⟨200, [], none, true, "", ""⟩,
        ⟨200, [], none, true, "", ""⟩, ⟨200, [], none, true, "", ""⟩⟩ ≠
      .error (.missingSessionCredential true) := by
  refine ⟨rfl, rfl, ?_⟩
  decide

/-- C2 amended: on an ok login response, the credential extracted from the
login response's headers replaces the token-fetch credential only when the
extraction yields a truthy value; otherwise the token-fetch credential is
kept; the operation fails with the missing-credential error exactly when
neither the login response nor the token-fetch step produced a truthy
credential. -/
theorem loginAsAdmin_eq_finish (r : RemoteResponses) (session : SessionContext)
    (hfetch : fetchCsrfToken none r.csrf1 = .ok session)
    (hok : okb r.login = true) :
    loginAsAdmin r = loginFinish (extractSessionCookies r.login.setCookie) session r.me := by
  unfold loginAsAdmin
  rw [hfetch, hok]
  rfl

theorem loginFinish_error_iff (u : Option String) (session : SessionContext)
    (me : HttpResp) :
    loginFinish u session me = .error (.missingSessionCredential true) ↔
      (truthy u = false ∧ truthy session.cookie = false) := by
  unfold loginFinish
  by_cases hu : truthy u = true
  · rw [if_pos hu, if_neg (by simp [hu])]
    constructor
    · intro hcon
      exfalso
      split at hcon
      · rename_i e heq
        rcases assertAdmin_errors _ _ _ heq with h1 | h1 <;>
          (subst h1; exact StError.noConfusion (Except.error.inj hcon))
      · exact Except.noConfusion hcon
    · rintro ⟨h1, -⟩
      rw [hu] at h1
      exact Bool.noConfusion h1
  · rw [if_neg hu]
    by_cases hk : truthy session.cookie = true
    · rw [if_neg (by simp [hk])]
      constructor
      · intro hcon
        exfalso
        split at hcon
        · rename_i e heq
          rcases assertAdmin_errors _ _ _ heq with h1 | h1 <;>
            (subst h1; exact StError.noConfusion (Except.error.inj hcon))
        · exact Except.noConfusion hcon
      · rintro ⟨-, h1⟩
        rw [hk] at h1
        exact Bool.noConfusion h1
    · have hu' := Bool.not_eq_true _ |>.mp hu
      have hk' := Bool.not_eq_true _ |>.mp hk
      rw [if_pos (by simp [hk'])]
      simp [hu', hk']

theorem loginFinish_ok_cookie (u : Option String) (session : SessionContext)
    (me : HttpResp) (s2 : SessionContext)
    (h2 : loginFinish u session me = .ok s2) :
    s2.cookie = if truthy u = true then u else session.cookie := by
  unfold loginFinish at h2
  by_cases hu : truthy u = true
  · rw [if_pos hu] at h2
    rw [if_neg (by simp [hu])] at h2
    rw [if_pos hu]
    split at h2
    · exact Except.noConfusion h2
    · cases Except.ok.inj h2
      rfl
  · rw [if_neg hu] at h2
    rw [if_neg hu]
    by_cases hk : truthy session.cookie = true
    · rw [if_neg (by simp [hk])] at h2
      split at h2
      · exact Except.noConfusion h2
      · cases Except.ok.inj h2
        rfl
    · have hk' := Bool.not_eq_true _ |>.mp hk
      rw [if_pos (by simp [hk'])] at h2
      exact Except.noConfusion h2

/-- C2 amended: on an ok login response, the credential extracted from the
login response's headers replaces the token-fetch credential only when the
extraction yields a truthy value; otherwise the token-fetch credential is
kept; the operation fails with the missing-credential error exactly when
neither the login response nor the token-fetch step produced a truthy
credential. -/
theorem c2_login_credential (r : RemoteResponses) (session : SessionContext)
    (hfetch : fetchCsrfToken none r.csrf1 = .ok session)
    (hok : okb r.login = true) :
    (loginAsAdmin r = .error (.missingSessionCredential true) ↔
      (truthy (extractSessionCookies r.login.setCookie) = false ∧
        truthy session.cookie = false)) ∧
    (∀ s2, loginAsAdmin r = .ok s2 →
      s2.cookie = if truthy (extractSessionCookies r.login.setCookie) = true then
        extractSessionCookies r.login.setCookie else session.cookie) := by
  rw [loginAsAdmin_eq_finish r session hfetch hok]
  exact ⟨loginFinish_error_iff _ session r.me,
    fun s2 h2 => loginFinish_ok_cookie _ session r.me s2 h2⟩

/-- C2 witness: when neither the token fetch (CSRF disabled, no cookie) nor
the login response yields a credential, the operation does fail with the
missing-credential error. -/
theorem c2_witness :
    loginAsAdmin ⟨⟨200, [], some "disabled", true, "", ""⟩,
        ⟨200, [], none, true, "", ""⟩, ⟨200, [], none, true, "", ""⟩,
        ⟨200, [], none, true, "", ""⟩, ⟨200, [], none, true, "", ""⟩⟩ =
      .error (.missingSessionCredential true) :=
  (c2_login_credential _ ⟨none, some "disabled"⟩ (by decide) (by decide)).1.mpr
    (by decide)

/-! ## C8: mapping of the create-account response -/

/-- C8: with valid inputs and successful session steps, registerUser maps an
HTTP 409 create response to the already-exists error (which deriveStatus
surfaces as a 409, not a generic failure), any other non-2xx response to the
create-failed error carrying status and body, and a 2xx response to the
handle reported by the remote service. -/
theorem c8_create_mapping (handle name password : String) (r : RemoteResponses)
    (session ctx : SessionContext)
    (hh : (handle == "") = false) (hn : (name == "") = false)
    (hnorm : (normalizeHandle handle == "") = false)
    (hlogin : loginAsAdmin r = .ok session)
    (hcsrf : fetchCsrfToken session.cookie r.csrf2 = .ok ctx) :
    (r.create.status = 409 →
      registerUser handle name password r = .error .handleAlreadyExists ∧
      deriveStatus (errMessage .handleAlreadyExists) = 409) ∧
    (r.create.status ≠ 409 → okb r.create = false →
      registerUser handle name password r =
        .error (.createAccountFailed r.create.status r.create.body)) ∧
    (okb r.create = true →
      registerUser handle name password r = .ok (r.create.jsonHandle, trimS name)) := by
  have hcond : (handle == "" || name == "") = false := by simp [hh, hn]
  have hred : registerUser handle name password r =
      (if r.create.status == 409 then .error .handleAlreadyExists
       else if !(okb r.create) then
        .error (.createAccountFailed r.create.status r.create.body)
       else .ok (r.create.jsonHandle, trimS name)) := by
    unfold registerUser
    rw [hcond, hnorm, hlogin]
    dsimp only
    rw [hcsrf]
    rfl
  refine ⟨fun h409 => ⟨?_, by decide⟩, fun hne hnok => ?_, fun hok2 => ?_⟩
  · rw [hred]
    simp [h409]
  · rw [hred]
    simp [hne, hnok]
  · have hne : r.create.status ≠ 409 := by
      unfold okb at hok2
      simp only [Bool.and_eq_true, decide_eq_true_eq] at hok2
      omega
    rw [hred]
    simp [hne, hok2]

/-- C8 witness: a concrete 409 create response surfaces as the already-exists
error with HTTP status 409. -/
theorem c8_witness :
    registerUser "alice" "Alice" "pw" ⟨⟨200, ["session-a=1; HttpOnly"], some "tok", true, "", ""⟩,
        ⟨200, [], none, true, "", ""⟩, ⟨200, [], none, true, "", ""⟩,
        ⟨200, ["session-a=1; HttpOnly"], some "tok", true, "", ""⟩,
        ⟨409, [], none, true, "", ""⟩⟩ = .error .handleAlreadyExists ∧
    deriveStatus (errMessage .handleAlreadyExists) = 409 :=
  (c8_create_mapping "alice" "Alice" "pw" _ ⟨some "session-a=1", some "tok"⟩
    ⟨some "session-a=1", some "tok"⟩ (by decide) (by decide) (by decide)
    (by decide) (by decide)).1 rfl

/-! ## C6: handle normalization in registerUser -/

theorem pushWord_mem (acc : List Char) (ws : List (List Char)) (w : List Char)
    (hw : w ∈ pushWord acc ws) : (acc ≠ [] ∧ w = acc.reverse) ∨ w ∈ ws := by
  unfold pushWord at hw
  split at hw
  · exact Or.inr hw
  · rcases List.mem_cons.mp hw with h1 | h1
    · rename_i hne
      refine Or.inl ⟨?_, h1⟩
      intro hacc
      exact hne (by simp [hacc])
    · exact Or.inr h1

theorem wordsAux_words (l : List Char) : ∀ acc : List Char,
    (∀ c ∈ acc, isAlnumA c = true) →
    ∀ w ∈ wordsAux acc l, w ≠ [] ∧ ∀ c ∈ w, isAlnumA c = true := by
  induction l with
  | nil =>
    intro acc hacc w hw
    unfold wordsAux at hw
    rcases pushWord_mem _ _ _ hw with ⟨hne, rfl⟩ | h1
    · exact ⟨by simpa using hne, fun c hc => hacc c (List.mem_reverse.mp hc)⟩
    · cases h1
  | cons c rest ih =>
    intro acc hacc w hw
    unfold wordsAux at hw
    by_cases hC : isAlnumA c = true
    · rw [if_neg (by simp [hC])] at hw
      cases acc with
      | nil =>
        exact ih [c] (by simpa using hC) w hw
      | cons p accT =>
        dsimp only at hw
        by_cases hB : camelBoundary p c rest = true
        · rw [if_pos hB] at hw
          rcases pushWord_mem _ _ _ hw with ⟨hne, rfl⟩ | h1
          · exact ⟨by simpa using hne, fun d hd => hacc d (List.mem_reverse.mp hd)⟩
          · exact ih [c] (by simpa using hC) w h1
        · rw [if_neg hB] at hw
          refine ih (c :: p :: accT) ?_ w hw
          intro d hd
          rcases List.mem_cons.mp hd with rfl | hd2
          · exact hC
          · exact hacc d hd2
    · rw [if_pos (by simp [hC])] at hw
      rcases pushWord_mem _ _ _ hw with ⟨hne, rfl⟩ | h1
      · exact ⟨by simpa using hne, fun d hd => hacc d (List.mem_reverse.mp hd)⟩
      · exact ih [] (by simp) w h1

theorem toLowerChar_alnum (c : Char) (h : isAlnumA c = true) :
    (isLowerA (toLowerChar c) || isDigitA (toLowerChar c)) = true := by
  unfold isAlnumA isAlphaA at h
  unfold toLowerChar
  rcases Bool.or_eq_true _ _ |>.mp h with h1 | h2
  · rcases Bool.or_eq_true _ _ |>.mp h1 with hU | hL
    · unfold isUpperA at hU
      simp only [Bool.and_eq_true, decide_eq_true_eq] at hU
      rw [if_pos hU]
      obtain ⟨hU1, hU2⟩ := hU
      set k := c.toNat with hk
      interval_cases k <;> decide
    · unfold isLowerA at hL
      simp only [Bool.and_eq_true, decide_eq_true_eq] at hL
      rw [if_neg (by omega)]
      unfold isLowerA
      simp only [Bool.or_eq_true, Bool.and_eq_true, decide_eq_true_eq]
      exact Or.inl ⟨hL.1, hL.2⟩
  · unfold isDigitA at h2
    simp only [Bool.and_eq_true, decide_eq_true_eq] at h2
    rw [if_neg (by omega)]
    unfold isDigitA
    simp only [Bool.or_eq_true, Bool.and_eq_true, decide_eq_true_eq]
    exact Or.inr ⟨h2.1, h2.2⟩

theorem normalizeHandle_words (handle : String) :
    ∃ ws : List (List Char), (normalizeHandle handle).data = joinDash ws ∧
      ∀ w ∈ ws, w ≠ [] ∧ ∀ c ∈ w, (isLowerA c || isDigitA c) = true := by
  refine ⟨(wordsAux [] (removeApos (trimS handle).data)).map lowerChars, rfl, ?_⟩
  intro w hw
  rcases List.mem_map.mp hw with ⟨w0, hw0, rfl⟩
  have h0 := wordsAux_words _ [] (by simp) w0 hw0
  constructor
  · simpa [lowerChars] using h0.1
  · intro c hc
    rcases List.mem_map.mp hc with ⟨d, hd, rfl⟩
    exact toLowerChar_alnum d (h0.2 d hd)

theorem loginFinish_ne_invalidHandle (u : Option String) (session : SessionContext)
    (me : HttpResp) : loginFinish u session me ≠ .error .invalidHandle := by
  unfold loginFinish
  intro hcon
  set cookie := if truthy u = true then u else session.cookie with hc
  by_cases ht : truthy cookie = true
  · rw [if_neg (by simp [ht])] at hcon
    split at hcon
    · rename_i e heq
      rcases assertAdmin_errors _ _ _ heq with h1 | h1 <;>
        (subst h1; exact StError.noConfusion (Except.error.inj hcon))
    · exact Except.noConfusion hcon
  · rw [if_pos (by simp [Bool.not_eq_true _ |>.mp ht])] at hcon
    exact StError.noConfusion (Except.error.inj hcon)

theorem loginAsAdmin_ne_invalidHandle (r : RemoteResponses) :
    loginAsAdmin r ≠ .error .invalidHandle := by
  unfold loginAsAdmin
  intro hcon
  split at hcon
  · rename_i e heq
    rcases fetchCsrfToken_errors _ _ _ heq with h1 | h1 <;>
      (subst h1; exact StError.noConfusion (Except.error.inj hcon))
  · split at hcon
    · exact StError.noConfusion (Except.error.inj hcon)
    · exact loginFinish_ne_invalidHandle _ _ _ hcon

/-- C6 counterexample: the claim describes the normalization as lowercasing
with non-alphanumeric runs collapsed to separators (plus a length cap), but
the code's kebab-casing also inserts a separator at a case boundary: on
"aB" the code yields "a-b" while the spec-worded normalization yields "ab"
(no truncation of "ab" can equal "a-b", so no length cap rescues the
claim); and a 72-character handle is returned whole, unaffected by any cap
at the documented 64-character input limit. -/
theorem c6_counterexample :
    normalizeHandle "aB" = "a-b" ∧ specNormalize "aB" = "ab" ∧
    normalizeHandle "aB" ≠ specNormalize "aB" ∧
    normalizeHandle
        "aaaaaaaaaaaaaaaaaaaaaaaaaaaaaaaaaaaaaaaaaaaaaaaaaaaaaaaaaaaaaaaaaaaaaaaa" =
      "aaaaaaaaaaaaaaaaaaaaaaaaaaaaaaaaaaaaaaaaaaaaaaaaaaaaaaaaaaaaaaaaaaaaaaaa" := by
  refine ⟨rfl, rfl, by decide, rfl⟩

/-- C6 amended: registerUser fails with the invalid-handle error exactly
when handle and name are truthy but the kebab normalization of the handle is
empty; the normalization output is a dash-join of nonempty words whose
characters are ASCII lowercase letters or digits (word boundaries are
non-alphanumeric runs plus case and letter/digit transitions; no length cap
is applied). -/
theorem c6_normalize_spec (handle name password : String) (r : RemoteResponses) :
    (registerUser handle name password r = .error .invalidHandle ↔
      (handle ≠ "" ∧ name ≠ "" ∧ normalizeHandle handle = "")) ∧
    (∃ ws : List (List Char), (normalizeHandle handle).data = joinDash ws ∧
      ∀ w ∈ ws, w ≠ [] ∧ ∀ c ∈ w, (isLowerA c || isDigitA c) = true) := by
  refine ⟨⟨?_, ?_⟩, normalizeHandle_words handle⟩
  · intro hcon
    unfold registerUser at hcon
    by_cases h1 : (handle == "" || name == "") = true
    · rw [if_pos h1] at hcon
      exact absurd (Except.error.inj hcon) (by intro h; exact StError.noConfusion h)
    · rw [if_neg h1] at hcon
      have h1' : (handle == "") = false ∧ (name == "") = false := by
        have hf := Bool.not_eq_true _ |>.mp h1
        constructor
        · cases hh : (handle == "") with
          | false => rfl
          | true => rw [hh] at hf; simp at hf
        · cases hh : (name == "") with
          | false => rfl
          | true => rw [hh] at hf; simp [hh] at hf
      by_cases h2 : (normalizeHandle handle == "") = true
      · exact ⟨by simpa using h1'.1, by simpa using h1'.2, by simpa using h2⟩
      · rw [if_neg h2] at hcon
        split at hcon
        · rename_i e heq
          have h3 : e = .invalidHandle := Except.error.inj hcon
          subst h3
          exact absurd heq (loginAsAdmin_ne_invalidHandle r)
        · split at hcon
          · rename_i e2 heq2
            have h3 : e2 = .invalidHandle := Except.error.inj hcon
            subst h3
            rcases fetchCsrfToken_errors _ _ _ heq2 with h4 | h4 <;>
              exact StError.noConfusion h4
          · split at hcon
            · exact StError.noConfusion (Except.error.inj hcon)
            · split at hcon
              · exact StError.noConfusion (Except.error.inj hcon)
              · exact Except.noConfusion hcon
  · rintro ⟨h1, h2, h3⟩
    unfold registerUser
    rw [if_neg (by simp [h1, h2]), if_pos (by simpa using h3)]

/-- C6 witness: a handle of pure punctuation normalizes to the empty string
and is rejected with the invalid-handle error. -/
theorem c6_witness :
    registerUser "!!!" "Alice" "pw" ⟨⟨0, [], none, false, "", ""⟩, ⟨0, [], none, false, "", ""⟩,
        ⟨0, [], none, false, "", ""⟩, ⟨0, [], none, false, "", ""⟩,
        ⟨0, [], none, false, "", ""⟩⟩ = .error .invalidHandle :=
  (c6_normalize_spec "!!!" "Alice" "pw" _).1.mpr ⟨by decide, by decide, by decide⟩

/-! ## C7: session cookie extraction -/

theorem dedupeParts_mem (l : List String) : ∀ (seen : List String) (x : String),
    x ∈ dedupeParts seen l ↔ (x ∈ l ∧ x ∉ seen) := by
  induction l with
  | nil => intro seen x; simp [dedupeParts]
  | cons y ys ih =>
    intro seen x
    unfold dedupeParts
    by_cases hy : y ∈ seen
    · rw [if_pos hy, ih]
      constructor
      · rintro ⟨h1, h2⟩
        exact ⟨List.mem_cons_of_mem y h1, h2⟩
      · rintro ⟨h1, h2⟩
        rcases List.mem_cons.mp h1 with rfl | h3
        · exact absurd hy h2
        · exact ⟨h3, h2⟩
    · rw [if_neg hy]
      constructor
      · intro h1
        rcases List.mem_cons.mp h1 with rfl | h3
        · exact ⟨List.mem_cons_self x ys, hy⟩
        · rcases (ih (y :: seen) x).mp h3 with ⟨h4, h5⟩
          refine ⟨List.mem_cons_of_mem y h4, ?_⟩
          intro h6
          exact h5 (List.mem_cons_of_mem y h6)
      · rintro ⟨h1, h2⟩
        rcases List.mem_cons.mp h1 with rfl | h3
        · exact List.mem_cons_self x _
        · by_cases hxy : x = y
          · subst hxy
            exact List.mem_cons_self x _
          · refine List.mem_cons_of_mem y ((ih (y :: seen) x).mpr ⟨h3, ?_⟩)
            intro h4
            rcases List.mem_cons.mp h4 with h5 | h5
            · exact hxy h5
            · exact h2 h5

theorem dedupeParts_sublist (l : List String) : ∀ seen : List String,
    (dedupeParts seen l).Sublist l := by
  induction l with
  | nil => intro seen; simp [dedupeParts]
  | cons y ys ih =>
    intro seen
    unfold dedupeParts
    by_cases hy : y ∈ seen
    · rw [if_pos hy]
      exact (ih seen).cons y
    · rw [if_neg hy]
      exact (ih (y :: seen)).cons₂ y

theorem dedupeParts_nodup (l : List String) : ∀ seen : List String,
    (dedupeParts seen l).Nodup := by
  induction l with
  | nil => intro seen; simp [dedupeParts]
  | cons y ys ih =>
    intro seen
    unfold dedupeParts
    by_cases hy : y ∈ seen
    · rw [if_pos hy]
      exact ih seen
    · rw [if_neg hy]
      refine List.Nodup.cons ?_ (ih (y :: seen))
      intro hmem
      exact ((dedupeParts_mem ys (y :: seen) y).mp hmem).2 (List.mem_cons_self y seen)

/-- C7 counterexample: the claim says the filter selects cookies whose NAME
matches the session pattern; the code matches on the whole name=value token,
so a cookie named "a" whose value contains "session-" is selected by the
code but not by the spec-worded name filter. -/
theorem c7_counterexample :
    extractSessionCookies ["a=session-1; Path=/"] = some "a=session-1" ∧
    specExtractSessionCredential ["a=session-1; Path=/"] = none := by
  refine ⟨rfl, rfl⟩

/-- C7 amended: extractSessionCookies selects exactly those Set-Cookie
values whose leading name=value token (before the first semicolon, trimmed)
is nonempty and whose lowercased token contains "session-" or ".sig"
anywhere (name or value); it returns null when none match, and otherwise the
"; "-join of the matching tokens deduplicated preserving first-occurrence
order. -/
theorem c7_extract_spec (headerValues : List String) :
    (extractSessionCookies headerValues = none ↔ sessionParts headerValues = []) ∧
    (∀ s, extractSessionCookies headerValues = some s →
      ∃ ws : List String, s = joinParts ws ∧ ws.Nodup ∧
        ws.Sublist (sessionParts headerValues) ∧
        (∀ t, t ∈ ws ↔ t ∈ sessionParts headerValues)) := by
  constructor
  · unfold extractSessionCookies
    by_cases he : (sessionParts headerValues).isEmpty = true
    · rw [if_pos he]
      simp [List.isEmpty_iff.mp he]
    · rw [if_neg he]
      simp only [List.isEmpty_iff] at he
      simp [he]
  · intro s hs
    unfold extractSessionCookies at hs
    by_cases he : (sessionParts headerValues).isEmpty = true
    · rw [if_pos he] at hs
      cases hs
    · rw [if_neg he] at hs
      refine ⟨dedupeParts [] (sessionParts headerValues), (Option.some.inj hs).symm,
        dedupeParts_nodup _ [], dedupeParts_sublist _ [], ?_⟩
      intro t
      rw [dedupeParts_mem]
      simp

/-- C7 witness: a non-matching header extracts to null. -/
theorem c7_witness : extractSessionCookies ["foo=bar; Path=/"] = none :=
  (c7_extract_spec ["foo=bar; Path=/"]).1.mpr rfl

/-! ## C10: atomicity of ticket-based registration on remote failure -/

theorem sanitizeInput_ok (body : RegBody) (x : String × String × String × String)
    (h : sanitizeInput body = .ok x) :
    x = (trimS body.handle, trimS body.name, trimS body.password, trimS body.ticket) := by
  simp only [sanitizeInput] at h
  split at h
  · cases h
  · split at h
    · cases h
    · split at h
      · cases h
      · split at h
        · cases h
        · split at h
          · cases h
          · split at h
            · cases h
            · split at h
              · cases h
              · exact (Except.ok.inj h).symm

theorem getAuthorizationTicket_valid (ticket : String) (now : Nat) (s : TicketStore)
    (entry : TicketEntry) (hne : (ticket == "") = false)
    (hget : mget s ticket = some entry) (hused : entry.used = false)
    (hnow : now ≤ entry.expiresAt) :
    getAuthorizationTicket ticket now s =
      (some ⟨entry.provider, entry.providerId, entry.username⟩, s) := by
  unfold getAuthorizationTicket
  rw [if_neg (by simp [hne]), hget]
  dsimp only
  rw [if_neg (by simp [hused]), if_neg (by simp only [decide_eq_true_eq]; omega)]

/-- C10: if the remote account-creation step of the ticket-based
POST /register handler fails, no identity binding is written and the ticket
is not finalized: the ticket store and binding store are returned unchanged,
and a later peek at any time up to the ticket's expiry still returns the
claim, so the user can resubmit with the same ticket. -/
theorem c10_register_atomic (body : RegBody) (now now2 : Nat) (ts : TicketStore)
    (db : BindingStore) (avail : List String) (r : RemoteResponses)
    (entry : TicketEntry) (e : StError)
    (hne : (trimS body.ticket == "") = false)
    (hget : mget ts (trimS body.ticket) = some entry)
    (hused : entry.used = false)
    (hnow : now ≤ entry.expiresAt)
    (hnow2 : now2 ≤ entry.expiresAt)
    (hreg : registerUser (trimS body.handle) (trimS body.name) (trimS body.password) r =
      .error e) :
    (postRegister body now ts db avail r).2.1 = ts ∧
    (postRegister body now ts db avail r).2.2 = db ∧
    getAuthorizationTicket (trimS body.ticket) now2 ts =
      (some ⟨entry.provider, entry.providerId, entry.username⟩, ts) := by
  have hpeek := getAuthorizationTicket_valid _ now ts entry hne hget hused hnow
  have hpeek2 := getAuthorizationTicket_valid _ now2 ts entry hne hget hused hnow2
  refine ⟨?_, ?_, hpeek2⟩ <;>
  (unfold postRegister
   cases hs : sanitizeInput body with
   | error e2 => rfl
   | ok x =>
     have hx := sanitizeInput_ok body x hs
     subst hx
     dsimp only
     rw [hpeek]
     dsimp only
     cases hens : ensureOAuthAvailability entry.provider entry.providerId avail db with
     | error e3 => rfl
     | ok pr =>
       dsimp only
       unfold registerCore
       rw [hreg])

/-- C10 witness: a failed admin login during registration leaves the ticket
store and binding store unchanged and the ticket still peekable. -/
theorem c10_witness :
    (postRegister ⟨"alice", "Alice", "pw", "t1"⟩ 1
        [("t1", ⟨"github", "42", "alice", 0, 300000, false⟩)] [] ["github"]
        ⟨⟨200, ["session-a=1; HttpOnly"], some "tok", true, "", ""⟩,
          ⟨500, [], none, true, "", "bad"⟩, ⟨200, [], none, true, "", ""⟩,
          ⟨200, [], none, true, "", ""⟩, ⟨200, [], none, true, "", ""⟩⟩).2.1 =
      [("t1", ⟨"github", "42", "alice", 0, 300000, false⟩)] ∧
    (postRegister ⟨"alice", "Alice", "pw", "t1"⟩ 1
        [("t1", ⟨"github", "42", "alice", 0, 300000, false⟩)] [] ["github"]
        ⟨⟨200, ["session-a=1; HttpOnly"], some "tok", true, "", ""⟩,
          ⟨500, [], none, true, "", "bad"⟩, ⟨200, [], none, true, "", ""⟩,
          ⟨200, [], none, true, "", ""⟩, ⟨200, [], none, true, "", ""⟩⟩).2.2 =
      ([] : BindingStore) ∧
    getAuthorizationTicket (trimS "t1") 2
        [("t1", ⟨"github", "42", "alice", 0, 300000, false⟩)] =
      (some ⟨"github", "42", "alice"⟩,
        [("t1", ⟨"github", "42", "alice", 0, 300000, false⟩)]) :=
  c10_register_atomic ⟨"alice", "Alice", "pw", "t1"⟩ 1 2
    [("t1", ⟨"github", "42", "alice", 0, 300000, false⟩)] [] ["github"]
    ⟨⟨200, ["session-a=1; HttpOnly"], some "tok", true, "", ""⟩,
      ⟨500, [], none, true, "", "bad"⟩, ⟨200, [], none, true, "", ""⟩,
      ⟨200, [], none, true, "", ""⟩, ⟨200, [], none, true, "", ""⟩⟩
    ⟨"github", "42", "alice", 0, 300000, false⟩ (.adminLoginFailed 500 "bad")
    (by decide) (by decide) rfl (by decide) (by decide) (by decide)

end TavernRegister
